import Mathlib

/-!
Verification of `foxml_scripts/multithreaded.py` from digitalutsc/collection_utilities.

The Python source is shallowly embedded here: strings are `List Char`
(so that Python's slicing, `rfind`, `replace` and substring tests can be
modelled exactly, including negative indices), XML element trees are the
inductive `Elem` (tag in ElementTree's Clark notation `{ns}local`,
insertion-ordered attribute list, child list; text nodes are not modelled
because no function under verification reads or writes them), zip archives
are the inductive `Entry` (a member is either a regular file with bytes or
a nested archive), and Python exceptions are values of `PyErr`.

ElementTree semantics embedded faithfully where the source relies on them:
  * `bool(element)` is true iff the element has at least one child
    (`Elem.truthy`), which is what the source's `if element:` tests use;
  * `find(".//tag")` searches strict descendants in document (pre-order)
    order (`findL`);
  * `element.get(k)` returns `none` for a missing attribute and
    `element.set k v` updates in place or appends (`Elem.get`, `Elem.set`).
-/

/-- Python `needle in hay` on strings: substring test. -/
def pyIn (needle hay : List Char) : Bool :=
  match hay with
  | [] => needle.isEmpty
  | _ :: t => needle.isPrefixOf hay || pyIn needle t

/-- Python `os.path.basename`: the part of the path after the last slash. -/
def basename : List Char → List Char
  | [] => []
  | c :: rest =>
    if c = '/' then basename rest
    else if pyIn ['/'] rest then basename rest
    else c :: basename rest

/-- Fuelled worker for `pyReplace`: every step consumes at least one input
character, so fuel equal to the input length never runs out. -/
def pyReplaceF : Nat → List Char → List Char → List Char → List Char
  | 0, s, _, _ => s
  | fuel + 1, s, old, new =>
    match s with
    | [] => []
    | c :: cs =>
      if old ≠ [] ∧ old.isPrefixOf (c :: cs) then
        new ++ pyReplaceF fuel ((c :: cs).drop old.length) old new
      else c :: pyReplaceF fuel cs old new

/-- Python `s.replace(old, new)`: replace every non-overlapping occurrence,
left to right.  (`old` is never empty at the call sites embedded here.) -/
def pyReplace (s old new : List Char) : List Char :=
  pyReplaceF s.length s old new

/-- Python `s.rfind(c)`: index of the last occurrence of `c`, `-1` if absent. -/
def pyRfind (s : List Char) (c : Char) : Int :=
  match s with
  | [] => -1
  | x :: rest =>
    let r := pyRfind rest c
    if r ≥ 0 then r + 1
    else if x = c then 0
    else -1

/-- Clamp a Python slice bound to an absolute position in a string of length `n`
(negative indices count from the end, out-of-range indices are clamped). -/
def pyIdx (n : Nat) (i : Int) : Nat :=
  if i < 0 then (n + i).toNat else min i.toNat n

/-- Python `s[:i]`. -/
def pySliceTo (s : List Char) (i : Int) : List Char :=
  s.take (pyIdx s.length i)

/-- Python `s[i:]`. -/
def pySliceFrom (s : List Char) (i : Int) : List Char :=
  s.drop (pyIdx s.length i)

/-- An ElementTree element: tag (Clark notation), insertion-ordered attribute
dictionary, children.  Text content is not modelled (unused by the source). -/
inductive Elem where
  | mk (tag : List Char) (attrib : List (List Char × List Char)) (children : List Elem)

/-- The element's tag. -/
def Elem.tag : Elem → List Char
  | .mk t _ _ => t

/-- The element's attribute list. -/
def Elem.attrib : Elem → List (List Char × List Char)
  | .mk _ a _ => a

/-- The element's children. -/
def Elem.children : Elem → List Elem
  | .mk _ _ cs => cs

/-- Python `element.get(key)`: the attribute's value, or `None` when absent. -/
def Elem.get (e : Elem) (k : List Char) : Option (List Char) :=
  (e.attrib.find? (fun p => p.1 = k)).map Prod.snd

/-- Update an insertion-ordered attribute list at a key (in place), appending
when the key is new — Python dict assignment. -/
def setAttr (k v : List Char) : List (List Char × List Char) → List (List Char × List Char)
  | [] => [(k, v)]
  | p :: ps => if p.1 = k then (k, v) :: ps else p :: setAttr k v ps

/-- Python `element.set(key, value)`. -/
def Elem.set (e : Elem) (k v : List Char) : Elem :=
  .mk e.tag (setAttr k v e.attrib) e.children

/-- Python `bool(element)`: true iff the element has children.  The source
uses this truthiness in `if datastream_version_element:`,
`if content_location_element:` and `if nested_result:`. -/
def Elem.truthy (e : Elem) : Bool :=
  ¬ e.children.isEmpty

mutual

/-- `find(".//…")` on one element: the element itself when it matches, else
its first matching strict descendant in document (pre-order) order. -/
def findE (p : Elem → Bool) : Elem → Option Elem
  | .mk t a cs => if p (.mk t a cs) then some (.mk t a cs) else findL p cs

/-- `find(".//…")` over a child list: first strict descendant, in document
(pre-order) order, satisfying `p`. -/
def findL (p : Elem → Bool) : List Elem → Option Elem
  | [] => none
  | e :: rest =>
    match findE p e with
    | some r => some r
    | none => findL p rest

end

mutual

/-- An element together with all its strict descendants, pre-order. -/
def descE : Elem → List Elem
  | .mk t a cs => .mk t a cs :: descendantsL cs

/-- All strict descendants of a child list in document (pre-order) order. -/
def descendantsL : List Elem → List Elem
  | [] => []
  | e :: rest => descE e ++ descendantsL rest

end

mutual

/-- Replace inside this element the first descendant satisfying `p`. -/
def replaceE (p : Elem → Bool) (r : Elem) : Elem → Elem
  | .mk t a cs => .mk t a (replaceFirstL p r cs)

/-- Replace, in place, the first strict descendant satisfying `p` (the element
`find` would return) by `r`; the traversal mirrors `findL`. -/
def replaceFirstL (p : Elem → Bool) (r : Elem) : List Elem → List Elem
  | [] => []
  | e :: rest =>
    if p e then r :: rest
    else
      match findL p e.children with
      | some _ => replaceE p r e :: rest
      | none => e :: replaceFirstL p r rest

end

mutual

/-- Element size, for the joint induction principle. -/
def szE : Elem → Nat
  | .mk _ _ cs => 1 + szL cs

/-- Child-list size. -/
def szL : List Elem → Nat
  | [] => 0
  | e :: rest => szE e + szL rest

end

/-- Python exceptions raised by the embedded functions. -/
inductive PyErr where
  | attributeError
  | typeError
  | valueError
  | badZipFile
  | parseError (msg : List Char)
deriving DecidableEq

/-- expat's message for content following the document element. -/
def junkMsg : List Char := "junk after document element".toList

/-- expat's message for an XML declaration not at position zero. -/
def misplacedMsg : List Char := "XML or text declaration not at start of entity".toList

/-- expat's generic invalid-token message. -/
def invalidTokenMsg : List Char := "not well-formed (invalid token)".toList

/-- expat's message for an input with no document element. -/
def noElementMsg : List Char := "no element found".toList

/-- expat's message for a close tag not matching the open tag. -/
def mismatchedTagMsg : List Char := "mismatched tag".toList

/-- XML whitespace. -/
def isSpace (c : Char) : Bool := c = ' ' || c = '\t' || c = '\n' || c = '\r'

/-- Characters usable in a tag or attribute name (delimiter-free). -/
def isNameChar (c : Char) : Bool :=
  ¬ (isSpace c || c = '>' || c = '/' || c = '=' || c = '<' || c = '?' || c = '"' || c = '\'')

/-- Consume one expected character or fail. -/
def expectChar (c : Char) (s : List Char) : Except PyErr (List Char) :=
  match s with
  | x :: rest => if x = c then .ok rest else .error (.parseError invalidTokenMsg)
  | [] => .error (.parseError invalidTokenMsg)

/-- Drop input through the first occurrence of `pat` (inclusive). -/
def dropThrough (pat : List Char) : List Char → Option (List Char)
  | [] => none
  | c :: cs =>
    if pat.isPrefixOf (c :: cs) then some ((c :: cs).drop pat.length)
    else dropThrough pat cs

/-- Parse `name="value"` attributes up to (excluding) the tag terminator. -/
def parseAttrs : Nat → List Char → Except PyErr (List (List Char × List Char) × List Char)
  | 0, _ => .error (.parseError invalidTokenMsg)
  | fuel + 1, s =>
    let s1 := s.dropWhile isSpace
    match s1 with
    | [] => .error (.parseError invalidTokenMsg)
    | c :: _ =>
      if c = '>' ∨ c = '/' ∨ c = '?' then .ok ([], s1)
      else
        let name := s1.takeWhile isNameChar
        let s2 := s1.dropWhile isNameChar
        if name.isEmpty then .error (.parseError invalidTokenMsg)
        else
          match expectChar '=' (s2.dropWhile isSpace) with
          | .error e => .error e
          | .ok s3 =>
            match s3.dropWhile isSpace with
            | q :: s4 =>
              if q = '"' ∨ q = '\'' then
                let v := s4.takeWhile (· ≠ q)
                match expectChar q (s4.dropWhile (· ≠ q)) with
                | .error e => .error e
                | .ok s5 =>
                  match parseAttrs fuel s5 with
                  | .error e => .error e
                  | .ok (attrs, rest) => .ok ((name, v) :: attrs, rest)
              else .error (.parseError invalidTokenMsg)
            | [] => .error (.parseError invalidTokenMsg)

mutual

/-- Parse one element starting at `<`; models expat on namespace-free input
(tags are kept verbatim; no `xmlns` processing happens in the embedded
documents fed to the parser). -/
def parseElement : Nat → List Char → Except PyErr (Elem × List Char)
  | 0, _ => .error (.parseError invalidTokenMsg)
  | fuel + 1, s =>
    match expectChar '<' s with
    | .error e => .error e
    | .ok s1 =>
      let name := s1.takeWhile isNameChar
      let s2 := s1.dropWhile isNameChar
      if name.isEmpty then .error (.parseError invalidTokenMsg)
      else
        match parseAttrs fuel s2 with
        | .error e => .error e
        | .ok (attrs, s3) =>
          match s3 with
          | '/' :: '>' :: s4 => .ok (.mk name attrs [], s4)
          | '>' :: s4 =>
            match parseContent fuel s4 with
            | .error e => .error e
            | .ok (children, s5) =>
              let cname := s5.takeWhile isNameChar
              let s6 := s5.dropWhile isNameChar
              if cname ≠ name then .error (.parseError mismatchedTagMsg)
              else
                match expectChar '>' (s6.dropWhile isSpace) with
                | .error e => .error e
                | .ok s7 => .ok (.mk name attrs children, s7)
          | _ => .error (.parseError invalidTokenMsg)

/-- Parse element content up to (and through) the `</` of the close tag;
character data is skipped (text nodes are not modelled).  A `<?xml` inside
content is expat's misplaced-declaration error. -/
def parseContent : Nat → List Char → Except PyErr (List Elem × List Char)
  | 0, _ => .error (.parseError invalidTokenMsg)
  | fuel + 1, s =>
    let s1 := s.dropWhile (· ≠ '<')
    match s1 with
    | [] => .error (.parseError noElementMsg)
    | '<' :: '/' :: s2 => .ok ([], s2)
    | _ =>
      if "<?xml".toList.isPrefixOf s1 then .error (.parseError misplacedMsg)
      else if "<?".toList.isPrefixOf s1 then
        match dropThrough "?>".toList s1 with
        | some s2 =>
          match parseContent fuel s2 with
          | .error e => .error e
          | .ok (children, rest) => .ok (children, rest)
        | none => .error (.parseError invalidTokenMsg)
      else
        match parseElement fuel s1 with
        | .error e => .error e
        | .ok (child, s2) =>
          match parseContent fuel s2 with
          | .error e => .error e
          | .ok (children, rest) => .ok (child :: children, rest)

end

/-- Model of `xml.etree.ElementTree.fromstring` (expat) on the namespace-free
documents arising here: an optional XML declaration at position zero, one
document element, and nothing but whitespace allowed after it — anything
else after the document element is expat's junk error. -/
def pyParse (s : List Char) : Except PyErr Elem :=
  let s1 :=
    if "<?xml".toList.isPrefixOf s then dropThrough "?>".toList s
    else some s
  match s1 with
  | none => .error (.parseError invalidTokenMsg)
  | some s2 =>
    let s3 := s2.dropWhile isSpace
    match s3 with
    | [] => .error (.parseError noElementMsg)
    | '<' :: _ =>
      match parseElement (s3.length + 1) s3 with
      | .error e => .error e
      | .ok (root, rest) =>
        if (rest.dropWhile isSpace).isEmpty then .ok root
        else .error (.parseError junkMsg)
    | _ => .error (.parseError invalidTokenMsg)

/-- One match of the pattern `<\?xml[^>]+\?>` anchored at the start of `s`:
returns the matched text and the rest, or `none` when the pattern does not
match here. -/
def matchXmlDecl (s : List Char) : Option (List Char × List Char) :=
  if "<?xml".toList.isPrefixOf s then
    match (s.drop 5).dropWhile (· ≠ '>') with
    | '>' :: rest =>
      if ((s.drop 5).takeWhile (· ≠ '>')).length ≥ 2 ∧
          ((s.drop 5).takeWhile (· ≠ '>')).getLast? = some '?' then
        some ("<?xml".toList ++ (s.drop 5).takeWhile (· ≠ '>') ++ ['>'], rest)
      else none
    | _ => none
  else none

/-- `re.sub(r"(<\?xml[^>]+\?>)", r"\1<root>", s)`: after every occurrence of
an XML declaration insert `<root>` (the substitution is global, not limited
to the first declaration); fuelled worker. -/
def resubRootF : Nat → List Char → List Char
  | 0, s => s
  | fuel + 1, s =>
    match s with
    | [] => []
    | c :: cs =>
      match matchXmlDecl (c :: cs) with
      | some (m, rest) => m ++ "<root>".toList ++ resubRootF fuel rest
      | none => c :: resubRootF fuel cs

/-- The global substitution applied to the whole input (a successful match
consumes at least seven characters, so fuel equal to the input length never
runs out). -/
def resubRoot (s : List Char) : List Char :=
  resubRootF s.length s

/-- Lines 128–135 of `multithreaded.py`: parse; on a ParseError whose message
contains `junk after document element`, re-parse the repaired text
`re.sub(..., r"\1<root>", content) + "</root>"`; any other parse failure
propagates. -/
def parseWithRepair (b : List Char) : Except PyErr Elem :=
  match pyParse b with
  | .ok t => .ok t
  | .error (.parseError msg) =>
    if pyIn junkMsg msg then pyParse (resubRoot b ++ "</root>".toList)
    else .error (.parseError msg)
  | .error e => .error e

/-- A zip member: a regular file with bytes, or a nested archive (its raw
bytes are what `zip_ref.read(name)` would return for it). -/
inductive Entry where
  | file (name : List Char) (bytes : List Char)
  | nested (name : List Char) (raw : List Char) (entries : List Entry)

mutual

/-- Entry size, for the joint induction principle. -/
def szEntE : Entry → Nat
  | .file _ _ => 1
  | .nested _ _ es => 1 + szEntL es

/-- Member-list size. -/
def szEntL : List Entry → Nat
  | [] => 0
  | e :: rest => szEntE e + szEntL rest

end

/-- The container-file suffix tested by `re.search(r'\.zip$', name)`. -/
def zipSuffix : List Char := ".zip".toList

mutual

/-- One member\'s contribution to the search: `.ok none` means this member
matched nothing (or its nested result was discarded as falsy by Python\'s
`if nested_result:`), so the loop moves on. -/
def get_XML_tree_entry (target : List Char) : Entry → Except PyErr (Option Elem)
  | .file n b =>
    if zipSuffix.isSuffixOf n then .error .badZipFile
    else if pyIn target (basename n) then (parseWithRepair b).map some
    else .ok none
  | .nested n raw es =>
    if zipSuffix.isSuffixOf n then
      match get_XML_tree_zip_file target es with
      | .error e => .error e
      | .ok (some r) => if r.truthy then .ok (some r) else .ok none
      | .ok none => .ok none
    else if pyIn target (basename n) then (parseWithRepair raw).map some
    else .ok none

/-- `get_XML_tree_zip_file` (lines 107–136): walk members in listing order;
recurse into members whose names end in `.zip` (a nested result is returned
only when truthy — Python's `if nested_result:`); for other members whose
base name contains the target fragment, parse their bytes (with the
junk-repair); return `None` when the members are exhausted. -/
def get_XML_tree_zip_file (target : List Char) : List Entry → Except PyErr (Option Elem)
  | [] => .ok none
  | e :: rest =>
    match get_XML_tree_entry target e with
    | .error er => .error er
    | .ok (some r) => .ok (some r)
    | .ok none => get_XML_tree_zip_file target rest

end

/-- Clark-notation tag of `foxml:datastream`. -/
def foxmlDatastreamTag : List Char :=
  "\x7binfo:fedora/fedora-system:def/foxml#\x7ddatastream".toList

/-- Clark-notation tag of `foxml:datastreamVersion`. -/
def foxmlDatastreamVersionTag : List Char :=
  "\x7binfo:fedora/fedora-system:def/foxml#\x7ddatastreamVersion".toList

/-- Clark-notation tag of `foxml:contentLocation`. -/
def foxmlContentLocationTag : List Char :=
  "\x7binfo:fedora/fedora-system:def/foxml#\x7dcontentLocation".toList

/-- Clark-notation tag of `foxml:xmlContent`. -/
def foxmlXmlContentTag : List Char :=
  "\x7binfo:fedora/fedora-system:def/foxml#\x7dxmlContent".toList

/-- The `ID` attribute key. -/
def idKey : List Char := "ID".toList

/-- The `CONTROL_GROUP` attribute key. -/
def controlGroupKey : List Char := "CONTROL_GROUP".toList

/-- The managed sentinel `"M"`. -/
def managedVal : List Char := "M".toList

/-- The inline sentinel `"X"`. -/
def inlineVal : List Char := "X".toList

/-- The match target of `.//foxml:datastream[@ID='MODS']`. -/
def isMODSDatastream (e : Elem) : Bool :=
  e.tag == foxmlDatastreamTag && e.get idKey == some "MODS".toList

/-- The match target of `.//foxml:datastreamVersion`. -/
def isDatastreamVersion (e : Elem) : Bool :=
  e.tag == foxmlDatastreamVersionTag

/-- The match target of `.//foxml:contentLocation`. -/
def isContentLocation (e : Elem) : Bool :=
  e.tag == foxmlContentLocationTag

/-- `is_foxml_managed` (lines 139–149): find the `foxml:datastream` with
`ID="MODS"`; if present, report whether its `CONTROL_GROUP` attribute equals
`"M"` (a missing attribute reads `None`, which is not `"M"`); report `False`
when the datastream is absent. -/
def is_foxml_managed (foxml_root : Elem) : Bool :=
  match findL isMODSDatastream foxml_root.children with
  | some d => d.get controlGroupKey == some managedVal
  | none => false

/-- Python `v.split('}', 1)[1]`: the text after the first closing brace. -/
def afterFirstBrace : List Char → List Char
  | [] => []
  | c :: cs => if c = '\x7d' then cs else afterFirstBrace cs

/-- Strip the Clark-notation namespace from a string when it has one
(the source tests `'}' in value` first). -/
def stripClark (v : List Char) : List Char :=
  if pyIn ['\x7d'] v then afterFirstBrace v else v

/-- Strip namespaces from attribute values (not keys), keeping order. -/
def stripAttrL : List (List Char × List Char) → List (List Char × List Char)
  | [] => []
  | (k, v) :: rest => (k, stripClark v) :: stripAttrL rest

mutual

/-- Lines 168–176: over every element of the fetched tree (`iter()`), strip
the namespace from the tag and from every attribute value. -/
def stripElem : Elem → Elem
  | .mk t a cs => .mk (stripClark t) (stripAttrL a) (stripElemL cs)

/-- `stripElem` over a child list. -/
def stripElemL : List Elem → List Elem
  | [] => []
  | e :: rest => stripElem e :: stripElemL rest

end

/-- The `<mods>` wrapper element of lines 180–188, declaring the four
canonical namespaces, with the given children. -/
def modsWrapperElem (kids : List Elem) : Elem :=
  .mk "mods".toList
    [("xmlns".toList, "http://www.loc.gov/mods/v3".toList),
     ("xmlns:mods".toList, "http://www.loc.gov/mods/v3".toList),
     ("xmlns:xsi".toList, "http://www.w3.org/2001/XMLSchema-instance".toList),
     ("xmlns:xlink".toList, "http://www.w3.org/1999/xlink".toList)]
    kids

mutual

/-- Structural equality on elements (ElementTree compares by identity; the
identity of the element `find` returned is modelled by its value). -/
def beqElem : Elem → Elem → Bool
  | .mk t1 a1 c1, .mk t2 a2 c2 => t1 == t2 && a1 == a2 && beqElemL c1 c2

/-- `beqElem` on child lists. -/
def beqElemL : List Elem → List Elem → Bool
  | [], [] => true
  | e :: es, f :: fs => beqElem e f && beqElemL es fs
  | _, _ => false

end

/-- Membership for `list.remove`. -/
def containsBeq (x : Elem) : List Elem → Bool
  | [] => false
  | e :: rest => beqElem e x || containsBeq x rest

/-- Python `list.remove(x)`: drop the first matching child. -/
def removeFirstBeq (x : Elem) : List Elem → List Elem
  | [] => []
  | e :: rest => if beqElem e x then rest else e :: removeFirstBeq x rest

/-- The loop body of `managed_to_inline` (lines 161–194) on one
`datastreamVersion` element: returns the element's final state together with
the exception that interrupted the body, if any.  A childless version
element is skipped entirely (`if datastream_version_element:` is false), and
a childless `contentLocation` is found but not removed
(`if content_location_element:` is false). -/
def transformVersion (bag : List Entry) (v : Elem) : Elem × Option PyErr :=
  if ¬ v.truthy then (v, none)
  else
    let step1 : Except PyErr (List Elem) :=
      match findL isContentLocation v.children with
      | none => .ok v.children
      | some cl =>
        if ¬ cl.truthy then .ok v.children
        else if containsBeq cl v.children then .ok (removeFirstBeq cl v.children)
        else .error .valueError
    match step1 with
    | .error e => (v, some e)
    | .ok kids =>
      let v1 : Elem := .mk v.tag v.attrib kids
      match v1.get idKey with
      | none => (v1, some .typeError)
      | some vid =>
        match get_XML_tree_zip_file vid bag with
        | .error e => (v1, some e)
        | .ok none => (v1, some .attributeError)
        | .ok (some mods_root) =>
          let mr := stripElem mods_root
          let modsEl := modsWrapperElem mr.children
          let xc : Elem := .mk foxmlXmlContentTag [] [modsEl]
          (.mk v1.tag v1.attrib (v1.children ++ [xc]), none)

mutual

/-- Version processing inside one non-version element. -/
def transformVersE (bag : List Entry) : Elem → Elem × Option PyErr
  | .mk t a cs =>
    match transformVersL bag cs with
    | (cs', err) => (.mk t a cs', err)

/-- Process, in document order, the `datastreamVersion` elements that
`findall(".//foxml:datastreamVersion")` snapshots, threading the partially
mutated tree and stopping at the first exception.  (FOXML never nests a
`datastreamVersion` inside another, so a matched element's subtree is not
re-scanned.) -/
def transformVersL (bag : List Entry) : List Elem → List Elem × Option PyErr
  | [] => ([], none)
  | e :: rest =>
    if e.tag == foxmlDatastreamVersionTag then
      match transformVersion bag e with
      | (e', some er) => (e' :: rest, some er)
      | (e', none) =>
        match transformVersL bag rest with
        | (rest', err2) => (e' :: rest', err2)
    else
      match transformVersE bag e with
      | (e', some er) => (e' :: rest, some er)
      | (e', none) =>
        match transformVersL bag rest with
        | (rest', err2) => (e' :: rest', err2)

end

/-- `managed_to_inline` (lines 151–194): find the MODS datastream (raising
`AttributeError` on `None` when absent), set `CONTROL_GROUP` to `"X"`
immediately, then rewrite each version element; the returned tree reflects
every in-place mutation made up to the first exception, which is returned
alongside. -/
def managed_to_inline (foxml_root : Elem) (bag_archive : List Entry) : Elem × Option PyErr :=
  match findL isMODSDatastream foxml_root.children with
  | none => (foxml_root, some .attributeError)
  | some d =>
    let d1 := d.set controlGroupKey inlineVal
    match transformVersL bag_archive d1.children with
    | (cs, err) =>
      (.mk foxml_root.tag foxml_root.attrib
        (replaceFirstL isMODSDatastream (.mk d1.tag d1.attrib cs) foxml_root.children), err)

/-- The fixed suffix of companion-archive member names. -/
def atomzipSuffix : List Char := "_foxml_atomzip.zip".toList

/-- The fixed head of the generated drush command. -/
def drushHead : List Char := "drush @dsu --user=1 create-islandora-bag object ".toList

/-- `format_drush_command_from_atomzip` (lines 71–85): strip the suffix from
the base name, split at the last underscore, and format the command. -/
def format_drush_command_from_atomzip (zip_path : List Char) : List Char :=
  let zip_filename := pyReplace (basename zip_path) atomzipSuffix []
  let last_underscore_index := pyRfind zip_filename '_'
  let collection_name := pySliceTo zip_filename last_underscore_index
  let pid := pySliceFrom zip_filename (last_underscore_index + 1)
  drushHead ++ collection_name ++ [':'] ++ pid

/-- `get_bag_name_from_atomzip` (lines 196–198). -/
def get_bag_name_from_atomzip (p : List Char) : List Char :=
  pyReplace (basename p) atomzipSuffix []

/-- Outcome of the `xmllint` formatter subprocess for one item. -/
inductive FmtOutcome where
  | ok (formatted : List Char)
  | nonzeroExit
  | timeout
deriving DecidableEq

/-- One `_foxml_atomzip.zip` member of a container, with the outcomes of the
external steps abstracted as data: the drush bag path extracted from stdout,
whether the record Locator finds a record, the Classifier verdict, whether
the Transformer raises, and the formatter outcome. -/
structure Item where
  name : List Char
  nameInInput : Bool
  drushBagPath : Option (List Char)
  locateOk : Bool
  managed : Bool
  transformFails : Bool
  fmt : FmtOutcome

/-- What the per-item error prints of lines 233, 243, 263, 277 and 279 say:
only the drush failure (line 233) and the transform failure (line 243)
include the item's identifying name. -/
inductive LogEvent where
  | drushFailed (name : List Char)
  | transformError (name : List Char)
  | fmtError
  | fmtTimeout
  | otherError
deriving DecidableEq

/-- The loop state of `process_container_zip` (lines 211–280): the
`found_first_atomzip` flag, the current values of the loop-carried local
bindings `formatted_xml_string` and `converted_foxml_path` (`none` =
not yet bound), the output directories already created, the accumulated
`bag_name_and_new_foxml` rows, and the error log. -/
structure LoopState where
  foundFirst : Bool
  formatted : Option (List Char)
  convPath : Option (List Char)
  dirs : List (List Char)
  index : List (List Char × List Char)
  log : List LogEvent

/-- The per-item output path `{output_directory}/{bag_name}/foxml.xml`,
relative to the container's output directory. -/
def pathFor (name : List Char) : List Char := name ++ "/foxml.xml".toList

/-- Continue the member loop, or abort `process_container_zip` on an
uncaught exception. -/
inductive StepOut where
  | next (st : LoopState)
  | abort (st : LoopState)

/-- Line 280, outside the try/except: append
`[bag_name, converted_foxml_path]`; when `converted_foxml_path` was never
bound this raises an uncaught `NameError` that ends the container's
processing. -/
def finishAppend (st : LoopState) (it : Item) : StepOut :=
  match st.convPath with
  | some p => .next { st with index := st.index ++ [(it.name, p)] }
  | none => .abort st

/-- Lines 238–280 for one member, after the record tree has been obtained:
classify, transform (exceptions caught and logged with the bag name, line
243), then the formatter try-block.  On returncode 0 the output is written
to the fresh per-item path; on non-zero exit (lines 262–264) nothing
assigns `formatted_xml_string`, so the write either reuses the previous
item's text or raises a `NameError` caught at line 278; on timeout (line
276) `converted_foxml_path` keeps its previous binding.  A repeated bag
name makes `os.makedirs` raise, caught at line 278.  Line 280 appends in
every one of these paths. -/
def processRest (st : LoopState) (it : Item) : StepOut :=
  if ¬ it.locateOk then .abort st
  else
    let st1 := if it.managed ∧ it.transformFails
               then { st with log := st.log ++ [LogEvent.transformError it.name] }
               else st
    match it.fmt with
    | .ok out =>
      if st1.dirs.contains it.name then
        finishAppend { st1 with formatted := some out, log := st1.log ++ [LogEvent.otherError] } it
      else
        finishAppend
          { st1 with
            formatted := some out
            convPath := some (pathFor it.name)
            dirs := st1.dirs ++ [it.name] } it
    | .nonzeroExit =>
      let st2 := { st1 with log := st1.log ++ [LogEvent.fmtError] }
      if st2.dirs.contains it.name then
        finishAppend { st2 with log := st2.log ++ [LogEvent.otherError] } it
      else
        let st3 :=
          { st2 with
            convPath := some (pathFor it.name)
            dirs := st2.dirs ++ [it.name] }
        match st3.formatted with
        | none => finishAppend { st3 with log := st3.log ++ [LogEvent.otherError] } it
        | some _ => finishAppend st3 it
    | .timeout =>
      finishAppend { st1 with log := st1.log ++ [LogEvent.fmtTimeout] } it

/-- Lines 218–236 for one matching member: the first eligible member uses
the record already in the container; every other member needs the drush
bag, and a missing bag path is logged (with the member's name, line 233)
and skips the item (`continue`). -/
def processItem (st : LoopState) (it : Item) : StepOut :=
  if ¬ st.foundFirst ∧ ¬ it.nameInInput then
    processRest { st with foundFirst := true } it
  else
    match it.drushBagPath with
    | none => .next { st with log := st.log ++ [LogEvent.drushFailed it.name] }
    | some _ => processRest st it

/-- Run the member loop until done or an uncaught exception. -/
def runItems (st : LoopState) : List Item → LoopState
  | [] => st
  | it :: rest =>
    match processItem st it with
    | .next st' => runItems st' rest
    | .abort st' => st'

/-- The initial loop state of one container. -/
def initState : LoopState :=
  { foundFirst := false, formatted := none, convPath := none,
    dirs := [], index := [], log := [] }

/-- `process_container_zip` at item granularity: the loop of lines 218–280
over the container's matching members. -/
def process_container_zip (items : List Item) : LoopState :=
  runItems initState items

mutual

/-- One member of the specification-side Locator: container members are
told apart by entry kind, not by name. -/
def locator_spec_entry (target : List Char) : Entry → Except PyErr (Option Elem)
  | .file n b =>
    if pyIn target (basename n) then (parseWithRepair b).map some
    else .ok none
  | .nested _ _ es =>
    match locator_spec target es with
    | .error e => .error e
    | .ok (some r) => if r.truthy then .ok (some r) else .ok none
    | .ok none => .ok none

/-- Written from the specification's words for the Locator (§4.1): iterate
members in listing order; open container members as nested archives and
return the first non-empty recursive result; for regular members whose base
name contains the target fragment, return their parsed bytes; `none` when
the members are exhausted.  Container membership is by entry kind (the
specification's data model), where the implementation keys on the `.zip`
name suffix. -/
def locator_spec (target : List Char) : List Entry → Except PyErr (Option Elem)
  | [] => .ok none
  | e :: rest =>
    match locator_spec_entry target e with
    | .error er => .error er
    | .ok (some r) => .ok (some r)
    | .ok none => locator_spec target rest

end

mutual

/-- Name/kind consistency of one member. -/
def consistentE : Entry → Bool
  | .file n _ => !zipSuffix.isSuffixOf n
  | .nested n _ es => zipSuffix.isSuffixOf n && consistentNames es

/-- Archives whose member names are consistent with their kinds: exactly
the container members carry the `.zip` suffix, at every depth. -/
def consistentNames : List Entry → Bool
  | [] => true
  | e :: rest => consistentE e && consistentNames rest

end

mutual

/-- Whether one member (or its subtree) has a regular member whose base name
contains the target fragment. -/
def existsMatchE (target : List Char) : Entry → Bool
  | .file n _ => pyIn target (basename n)
  | .nested _ _ es => existsMatch target es

/-- Some regular member at some depth has the target fragment in its base
name. -/
def existsMatch (target : List Char) : List Entry → Bool
  | [] => false
  | e :: rest => existsMatchE target e || existsMatch target rest

end

/-- A childless external-location pointer, the shape FOXML serializes
(`<foxml:contentLocation TYPE="INTERNAL_ID" REF="…"/>`). -/
def sampleContentLocation : Elem :=
  .mk foxmlContentLocationTag
    [("TYPE".toList, "INTERNAL_ID".toList), ("REF".toList, "MODS.0".toList)] []

/-- A managed MODS `datastreamVersion` holding that pointer. -/
def sampleVersion : Elem :=
  .mk foxmlDatastreamVersionTag [(idKey, "MODS.0".toList)] [sampleContentLocation]

/-- A managed MODS datastream descriptor. -/
def sampleDS : Elem :=
  .mk foxmlDatastreamTag [(idKey, "MODS".toList), (controlGroupKey, managedVal)]
    [sampleVersion]

/-- A record tree with a managed MODS datastream. -/
def sampleRoot : Elem := .mk "digitalObject".toList [] [sampleDS]

/-- A bag archive holding the external MODS document for `MODS.0`. -/
def sampleBag : List Entry :=
  [.file "data/MODS.0.xml".toList "<mods ID=\"m\"><title/></mods>".toList]

/-- A record tree with no MODS datastream descriptor. -/
def rootNoDS : Elem :=
  .mk "digitalObject".toList [] [.mk "objectProperties".toList [] []]

/-- A MODS datastream descriptor carrying no `CONTROL_GROUP` attribute. -/
def dsNoCG : Elem := .mk foxmlDatastreamTag [(idKey, "MODS".toList)] []

/-- A record tree whose MODS datastream has no `CONTROL_GROUP` attribute. -/
def rootNoCG : Elem := .mk "digitalObject".toList [] [dsNoCG]

/-- The specification's repair example: two concatenated fragments, each
with its own XML declaration. -/
def specExampleBytes : List Char :=
  "<?xml version=\"1.0\"?><a/><?xml version=\"1.0\"?><b/>".toList

/-- An archive whose only member holds the specification's example bytes. -/
def specExampleArchive : List Entry :=
  [.file "member.xml".toList specExampleBytes]

/-- A single XML declaration followed by two fragments. -/
def singleDeclBytes : List Char := "<?xml version=\"1.0\"?><a/><b/>".toList

/-- A two-level archive with no member matching the target fragment. -/
def noMatchArchive : List Entry :=
  [.nested "inner.zip".toList "PK".toList
     [.file "docs/readme.txt".toList "hello".toList],
   .file "data/record.xml".toList "<r><v/></r>".toList]

/-- A first-eligible managed item whose transform raises and whose formatter
succeeds. -/
def cexItem : Item :=
  { name := "bagA".toList, nameInInput := false, drushBagPath := none,
    locateOk := true, managed := true, transformFails := true,
    fmt := .ok "<out/>".toList }

/-- A loop state after the first member has been handled, with no bindings. -/
def wStEmpty : LoopState :=
  { foundFirst := true, formatted := none, convPath := none,
    dirs := [], index := [], log := [] }

/-- A loop state carrying the bindings left by a previous successful item. -/
def wStBound : LoopState :=
  { foundFirst := true, formatted := some "<x/>".toList,
    convPath := some (pathFor "bagA".toList),
    dirs := ["bagA".toList], index := [("bagA".toList, pathFor "bagA".toList)],
    log := [] }

/-- First-`some` selection as `Option.or`. -/
theorem option_match_or {α : Type} (o b : Option α) :
    (match o with | some r => some r | none => b) = o.or b := by
  cases o <;> rfl

/-- Joint structural induction for elements and child lists. -/
theorem elem_mutual_ind (P : Elem → Prop) (Q : List Elem → Prop)
    (he : ∀ t a cs, Q cs → P (.mk t a cs))
    (hnil : Q [])
    (hcons : ∀ e rest, P e → Q rest → Q (e :: rest)) :
    (∀ e, P e) ∧ (∀ l, Q l) := by
  have key : ∀ n, (∀ e, szE e ≤ n → P e) ∧ (∀ l, szL l ≤ n → Q l) := by
    intro n
    induction n with
    | zero =>
      constructor
      · intro e h0
        cases e with
        | mk t a cs => simp [szE] at h0
      · intro l h0
        cases l with
        | nil => exact hnil
        | cons e rest =>
          cases e with
          | mk t a cs => simp [szL, szE] at h0
    | succ n ih =>
      have hP : ∀ e, szE e ≤ n + 1 → P e := by
        intro e hle
        cases e with
        | mk t a cs =>
          apply he
          apply ih.2
          simp [szE] at hle
          omega
      refine ⟨hP, ?_⟩
      intro l
      induction l with
      | nil => intro _; exact hnil
      | cons e rest ihl =>
        intro hle
        have h1 : 1 ≤ szE e := by
          cases e with
          | mk t a cs => simp [szE]
        refine hcons e rest (hP e ?_) (ihl ?_) <;> (simp [szL] at hle; omega)
  exact ⟨fun e => (key (szE e)).1 e le_rfl, fun l => (key (szL l)).2 l le_rfl⟩

/-- `findE`/`findL` are `find?` over the pre-order descendant enumeration. -/
theorem findE_findL_eq_find? (p : Elem → Bool) :
    (∀ e, findE p e = (descE e).find? p) ∧
    (∀ l, findL p l = (descendantsL l).find? p) := by
  apply elem_mutual_ind
  · intro t a cs hq
    by_cases hp : p (.mk t a cs)
    · simp [findE, descE, hp, List.find?]
    · simp [findE, descE, hp, List.find?, hq]
  · simp [findL, descendantsL]
  · intro e rest hP hQ
    simp only [findL, descendantsL, List.find?_append, hP, hQ]
    cases List.find? p (descE e) <;> simp

/-- `findL` is `find?` over the pre-order descendant enumeration. -/
theorem findL_eq_find?_descendantsL (p : Elem → Bool) (l : List Elem) :
    findL p l = (descendantsL l).find? p := (findE_findL_eq_find? p).2 l

/-- `setAttr` places the written key where `find?` returns it. -/
theorem find?_setAttr_same (k v : List Char) (a : List (List Char × List Char)) :
    (setAttr k v a).find? (fun p => p.1 = k) = some (k, v) := by
  induction a with
  | nil => simp [setAttr, List.find?]
  | cons p ps ih =>
    by_cases h : p.1 = k
    · simp [setAttr, h, List.find?]
    · simp [setAttr, h, List.find?, ih]

/-- `setAttr` leaves lookups of other keys unchanged. -/
theorem find?_setAttr_other (k v k' : List Char) (hk : k' ≠ k)
    (a : List (List Char × List Char)) :
    (setAttr k v a).find? (fun p => p.1 = k') = a.find? (fun p => p.1 = k') := by
  induction a with
  | nil => simp [setAttr, List.find?, Ne.symm hk]
  | cons p ps ih =>
    by_cases h : p.1 = k
    · have hne : ¬ p.1 = k' := by rw [h]; exact fun hh => hk hh.symm
      simp [setAttr, h, List.find?, hne, Ne.symm hk]
    · simp [setAttr, h, List.find?, ih]

/-- `element.set` writes the attribute it sets. -/
theorem get_set_same (e : Elem) (k v : List Char) : (e.set k v).get k = some v := by
  simp [Elem.set, Elem.get, Elem.attrib, find?_setAttr_same]

/-- `element.set` does not touch other attributes. -/
theorem get_set_other (e : Elem) (k v k' : List Char) (hk : k' ≠ k) :
    (e.set k v).get k' = e.get k' := by
  simp [Elem.set, Elem.get, Elem.attrib, find?_setAttr_other k v k' hk]

/-- `findL` only returns elements satisfying its predicate. -/
theorem findL_some_sat (p : Elem → Bool) (l : List Elem) (d : Elem)
    (h : findL p l = some d) : p d = true := by
  rw [findL_eq_find?_descendantsL] at h
  exact List.find?_some h

/-- Replacing the found element (by one that still satisfies a
children-insensitive predicate) is what `findL` then returns. -/
theorem findL_replaceFirstL (p : Elem → Bool)
    (hstable : ∀ t a cs cs', p (.mk t a cs) = p (.mk t a cs'))
    (r : Elem) (hr : p r = true) :
    ∀ (l : List Elem) (d : Elem), findL p l = some d →
      findL p (replaceFirstL p r l) = some r := by
  obtain ⟨rt, ra, rc⟩ := r
  have main := elem_mutual_ind
    (fun e => ∀ d, findL p e.children = some d →
      findL p (replaceFirstL p (.mk rt ra rc) e.children) = some (.mk rt ra rc))
    (fun l => ∀ d, findL p l = some d →
      findL p (replaceFirstL p (.mk rt ra rc) l) = some (.mk rt ra rc))
    (fun t a cs hq => by
      intro d h
      exact hq d h)
    (by intro d h; simp [findL] at h)
    ?_
  · exact main.2
  · intro e rest hPe hQrest d h
    obtain ⟨t, a, cs⟩ := e
    by_cases hp : p (.mk t a cs)
    · simp only [replaceFirstL, hp, if_true]
      simp [findL, findE, hr]
    · rcases hcs : findL p cs with _ | r'
      · have hrest : findL p rest = some d := by
          simpa [findL, findE, hp, hcs] using h
        simp only [replaceFirstL, hp, if_false, Elem.children, hcs]
        simp [findL, findE, hp, hcs, hQrest d hrest]
      · have hp' : p (Elem.mk t a (replaceFirstL p (.mk rt ra rc) cs)) = false := by
          rw [hstable t a _ cs]
          simpa using hp
        have hres := hPe r' (by simpa [Elem.children] using hcs)
        simp only [Elem.children] at hres
        simp only [replaceFirstL, hp, if_false, Elem.children, hcs]
        simp [findL, findE, replaceE, hp', hres]

/-- C5: the Classifier reports false when the MODS datastream descriptor is
absent from the record tree, and when the descriptor is present it reports
true exactly when its `CONTROL_GROUP` attribute equals the managed sentinel
`"M"`. -/
theorem C5_classifier_contract :
    (∀ root : Elem, (descendantsL root.children).find? isMODSDatastream = none →
        is_foxml_managed root = false) ∧
    (∀ root d : Elem, (descendantsL root.children).find? isMODSDatastream = some d →
        (is_foxml_managed root = true ↔ d.get controlGroupKey = some managedVal)) := by
  constructor
  · intro root h
    simp [is_foxml_managed, findL_eq_find?_descendantsL, h]
  · intro root d h
    simp [is_foxml_managed, findL_eq_find?_descendantsL, h]

/-- C5 at concrete record trees. -/
theorem C5_classifier_contract_witness :
    is_foxml_managed rootNoDS = false ∧
    (is_foxml_managed sampleRoot = true ↔
      sampleDS.get controlGroupKey = some managedVal) :=
  ⟨C5_classifier_contract.1 rootNoDS (by rfl),
   C5_classifier_contract.2 sampleRoot sampleDS (by rfl)⟩

/-- C8: a present MODS datastream descriptor without any `CONTROL_GROUP`
attribute makes the Classifier report false — the lookup yields `None`,
which is not the managed sentinel. -/
theorem C8_missing_attr_reports_false (root d : Elem)
    (h : (descendantsL root.children).find? isMODSDatastream = some d)
    (hcg : d.get controlGroupKey = none) :
    is_foxml_managed root = false := by
  simp [is_foxml_managed, findL_eq_find?_descendantsL, h, hcg]

/-- C8 at a concrete record tree. -/
theorem C8_missing_attr_reports_false_witness :
    is_foxml_managed rootNoCG = false :=
  C8_missing_attr_reports_false rootNoCG dsNoCG (by rfl) (by rfl)

/-- A children-swap does not change the MODS-datastream test. -/
theorem isMODSDatastream_ignores_children (t : List Char)
    (a : List (List Char × List Char)) (cs cs' : List Elem) :
    isMODSDatastream (.mk t a cs) = isMODSDatastream (.mk t a cs') := rfl

/-- Setting `CONTROL_GROUP` does not change the MODS-datastream test. -/
theorem isMODS_set_cg (e : Elem) (v : List Char) :
    isMODSDatastream (e.set controlGroupKey v) = isMODSDatastream e := by
  simp [isMODSDatastream, Elem.set, Elem.tag, Elem.get, Elem.attrib,
        find?_setAttr_other controlGroupKey v idKey (by decide)]

/-- After `managed_to_inline` on a tree whose MODS datastream was found, the
tree's MODS datastream lookup resolves to an element whose `CONTROL_GROUP`
is the inline sentinel — whether or not the version loop failed. -/
theorem managed_to_inline_result_ds (root : Elem) (bag : List Entry) (d : Elem)
    (h : findL isMODSDatastream root.children = some d) :
    ∃ d', findL isMODSDatastream (managed_to_inline root bag).1.children = some d' ∧
      d'.get controlGroupKey = some inlineVal := by
  have hpd : isMODSDatastream d = true := findL_some_sat _ _ _ h
  obtain ⟨rt, ra, rkids⟩ := root
  obtain ⟨dt, da, dkids⟩ := d
  simp only [Elem.children] at h
  rcases hq : transformVersL bag dkids with ⟨cs, err⟩
  have hd2 : isMODSDatastream (Elem.mk dt (setAttr controlGroupKey inlineVal da) cs) = true := by
    have h1 : isMODSDatastream (Elem.mk dt (setAttr controlGroupKey inlineVal da) cs)
        = isMODSDatastream ((Elem.mk dt da dkids).set controlGroupKey inlineVal) := by
      rw [isMODSDatastream_ignores_children dt _ cs dkids]
      rfl
    rw [h1, isMODS_set_cg]
    exact hpd
  have hget : (Elem.mk dt (setAttr controlGroupKey inlineVal da) cs).get controlGroupKey
      = some inlineVal := by
    show ((Elem.mk dt da cs).set controlGroupKey inlineVal).get controlGroupKey = some inlineVal
    exact get_set_same _ _ _
  refine ⟨_, ?_, hget⟩
  have hrep := findL_replaceFirstL isMODSDatastream
      (fun t a cs1 cs2 => isMODSDatastream_ignores_children t a cs1 cs2)
      _ hd2 rkids _ h
  simp only [managed_to_inline, Elem.children, Elem.set, Elem.tag, Elem.attrib, h, hq]
  exact hrep

/-- C6: once the Transformer has run on a tree containing the MODS
datastream (setting `CONTROL_GROUP` to the inline sentinel), the Classifier
reports false on the resulting tree, so a re-run never re-transforms it. -/
theorem C6_transformed_tree_not_managed (root : Elem) (bag : List Entry) (d : Elem)
    (h : findL isMODSDatastream root.children = some d) :
    is_foxml_managed (managed_to_inline root bag).1 = false := by
  obtain ⟨d', hfind, hget⟩ := managed_to_inline_result_ds root bag d h
  simp +decide [is_foxml_managed, hfind, hget]

/-- C6 at the concrete managed record. -/
theorem C6_transformed_tree_not_managed_witness :
    is_foxml_managed (managed_to_inline sampleRoot sampleBag).1 = false :=
  C6_transformed_tree_not_managed sampleRoot sampleBag sampleDS (by rfl)

/-- C9: `managed_to_inline` sets `CONTROL_GROUP` to the inline sentinel
before processing any version element, so when the run ends in an exception
the returned tree already carries the inline sentinel on its MODS
datastream — the transform is not atomic on error. -/
theorem C9_control_mode_set_before_versions (root : Elem) (bag : List Entry) (d : Elem)
    (err : PyErr) (h : findL isMODSDatastream root.children = some d)
    (herr : (managed_to_inline root bag).2 = some err) :
    ∃ d', findL isMODSDatastream (managed_to_inline root bag).1.children = some d' ∧
      d'.get controlGroupKey = some inlineVal :=
  managed_to_inline_result_ds root bag d h

/-- C9 at the concrete managed record with an empty bag archive: the
external MODS content cannot be located, the transform raises, and the tree
is left with the inline sentinel already set. -/
theorem C9_control_mode_set_before_versions_witness :
    ∃ d', findL isMODSDatastream (managed_to_inline sampleRoot []).1.children = some d' ∧
      d'.get controlGroupKey = some inlineVal :=
  C9_control_mode_set_before_versions sampleRoot [] sampleDS .attributeError
    (by rfl) (by rfl)

/-- C1, code-bug demonstration: `managed_to_inline` completes without error
on a managed record whose version holds a childless
`foxml:contentLocation`, the control mode is set to the inline sentinel,
and yet the pointer element is still present in the result — the removal at
lines 164–166 is guarded by `if content_location_element:`, which is false
for a childless element, contradicting the comment "Remove the
currentLocation element as there will no longer be a MODS file". -/
theorem C1_pointer_survives_transform :
    (managed_to_inline sampleRoot sampleBag).2 = none ∧
    ((findL isMODSDatastream (managed_to_inline sampleRoot sampleBag).1.children).map
        (fun d => d.get controlGroupKey)) = some (some inlineVal) ∧
    findL isContentLocation (managed_to_inline sampleRoot sampleBag).1.children =
      some sampleContentLocation :=
  ⟨rfl, rfl, rfl⟩

/-- C3, counterexample: on the specification's own example bytes the Locator
does not succeed — the global substitution inserts a synthetic root after
each of the two declarations, the re-parse hits the second declaration
mid-document, and the resulting parse error propagates. -/
theorem C3_counterexample :
    get_XML_tree_zip_file "member".toList specExampleArchive =
      .error (.parseError misplacedMsg) := rfl

/-- C3, amended: a parse failure whose message lacks the junk marker
propagates unrepaired; the initial parse of the specification's example
fails with the junk error (so the repair is attempted before failing); and
an input with a single declaration followed by two fragments is repaired to
a single synthetic root wrapping both. -/
theorem C3_repair_single_declaration (b msg : List Char)
    (h1 : pyParse b = .error (.parseError msg)) (h2 : pyIn junkMsg msg = false) :
    parseWithRepair b = .error (.parseError msg) ∧
    pyParse specExampleBytes = .error (.parseError junkMsg) ∧
    get_XML_tree_zip_file "member".toList [.file "member.xml".toList singleDeclBytes] =
      .ok (some (.mk "root".toList [] [.mk "a".toList [] [], .mk "b".toList [] []])) := by
  refine ⟨?_, rfl, rfl⟩
  simp [parseWithRepair, h1, h2]

/-- C3's amended statement at a concrete mismatched-tag input. -/
theorem C3_repair_single_declaration_witness :
    parseWithRepair "<a></b>".toList = .error (.parseError mismatchedTagMsg) ∧
    pyParse specExampleBytes = .error (.parseError junkMsg) ∧
    get_XML_tree_zip_file "member".toList [.file "member.xml".toList singleDeclBytes] =
      .ok (some (.mk "root".toList [] [.mk "a".toList [] [], .mk "b".toList [] []])) :=
  C3_repair_single_declaration "<a></b>".toList mismatchedTagMsg (by rfl) (by rfl)

/-- Joint structural induction for entries and member lists. -/
theorem entry_mutual_ind (P : Entry → Prop) (Q : List Entry → Prop)
    (hf : ∀ n b, P (.file n b))
    (hn : ∀ n raw es, Q es → P (.nested n raw es))
    (hnil : Q [])
    (hcons : ∀ e rest, P e → Q rest → Q (e :: rest)) :
    (∀ e, P e) ∧ (∀ l, Q l) := by
  have key : ∀ n, (∀ e, szEntE e ≤ n → P e) ∧ (∀ l, szEntL l ≤ n → Q l) := by
    intro n
    induction n with
    | zero =>
      constructor
      · intro e h0
        cases e <;> simp [szEntE] at h0
      · intro l h0
        cases l with
        | nil => exact hnil
        | cons e rest => cases e <;> simp [szEntL, szEntE] at h0
    | succ n ih =>
      have hP : ∀ e, szEntE e ≤ n + 1 → P e := by
        intro e hle
        cases e with
        | file nm b => exact hf nm b
        | nested nm raw es =>
          apply hn
          apply ih.2
          simp [szEntE] at hle
          omega
      refine ⟨hP, ?_⟩
      intro l
      induction l with
      | nil => intro _; exact hnil
      | cons e rest ihl =>
        intro hle
        have h1 : 1 ≤ szEntE e := by cases e <;> simp [szEntE]
        refine hcons e rest (hP e ?_) (ihl ?_) <;> (simp [szEntL] at hle; omega)
  exact ⟨fun e => (key (szEntE e)).1 e le_rfl, fun l => (key (szEntL l)).2 l le_rfl⟩

/-- On archives whose member names are consistent with their kinds, the
implementation's name-keyed walk equals the specification's kind-keyed
walk. -/
theorem locator_refines (t : List Char) :
    (∀ e : Entry, consistentE e = true → get_XML_tree_entry t e = locator_spec_entry t e) ∧
    (∀ l : List Entry, consistentNames l = true →
        get_XML_tree_zip_file t l = locator_spec t l) := by
  apply entry_mutual_ind
  · intro n b hc
    simp only [consistentE, Bool.not_eq_true'] at hc
    simp [get_XML_tree_entry, locator_spec_entry, hc]
  · intro n raw es hq hc
    simp only [consistentE, Bool.and_eq_true] at hc
    simp only [get_XML_tree_entry, locator_spec_entry, hc.1, if_true, hq hc.2]
  · intro _
    rfl
  · intro e rest hP hQ hc
    simp only [consistentNames, Bool.and_eq_true] at hc
    simp only [get_XML_tree_zip_file, locator_spec, hP hc.1, hQ hc.2]

/-- With no matching regular member at any depth, the walk returns `None`
without raising. -/
theorem locator_no_match (t : List Char) :
    (∀ e : Entry, consistentE e = true → existsMatchE t e = false →
        get_XML_tree_entry t e = .ok none) ∧
    (∀ l : List Entry, consistentNames l = true → existsMatch t l = false →
        get_XML_tree_zip_file t l = .ok none) := by
  apply entry_mutual_ind
  · intro n b hc hm
    simp only [consistentE, Bool.not_eq_true'] at hc
    simp only [existsMatchE] at hm
    simp [get_XML_tree_entry, hc, hm]
  · intro n raw es hq hc hm
    simp only [consistentE, Bool.and_eq_true] at hc
    simp only [existsMatchE] at hm
    simp [get_XML_tree_entry, hc.1, hq hc.2 hm]
  · intro _ _
    rfl
  · intro e rest hP hQ hc hm
    simp only [consistentNames, Bool.and_eq_true] at hc
    simp only [existsMatch, Bool.or_eq_false_iff] at hm
    simp [get_XML_tree_zip_file, hP hc.1 hm.1, hQ hc.2 hm.2]

/-- C4: on archives whose member names are consistent with their kinds, the
Locator walks members in listing order exactly as the specification
describes (first non-empty recursive result for containers, parsed bytes of
the first matching regular member), and when no member at any nesting depth
matches it returns `None` without raising. -/
theorem C4_locator_contract (t : List Char) (es : List Entry)
    (hc : consistentNames es = true) :
    get_XML_tree_zip_file t es = locator_spec t es ∧
    (existsMatch t es = false → get_XML_tree_zip_file t es = .ok none) :=
  ⟨(locator_refines t).2 es hc, fun hm => (locator_no_match t).2 es hc hm⟩

/-- C4 at a concrete nested archive with no matching member. -/
theorem C4_locator_contract_witness :
    (get_XML_tree_zip_file "foxml.xml".toList noMatchArchive =
      locator_spec "foxml.xml".toList noMatchArchive) ∧
    get_XML_tree_zip_file "foxml.xml".toList noMatchArchive = .ok none :=
  ⟨(C4_locator_contract "foxml.xml".toList noMatchArchive (by rfl)).1,
   (C4_locator_contract "foxml.xml".toList noMatchArchive (by rfl)).2 (by rfl)⟩

/-- `pyReplaceF` on an empty string. -/
theorem pyReplaceF_nil (fuel : Nat) (old new : List Char) :
    pyReplaceF fuel [] old new = [] := by
  cases fuel <;> rfl

/-- When the pattern occurs only as the final suffix, replacing it by the
empty string strips exactly that suffix. -/
theorem pyReplaceF_strip (old : List Char) (hold : old ≠ []) :
    ∀ (stem : List Char) (fuel : Nat), (stem ++ old).length ≤ fuel →
      (∀ i, i < stem.length → ¬ old.isPrefixOf ((stem ++ old).drop i)) →
      pyReplaceF fuel (stem ++ old) old [] = stem := by
  intro stem
  induction stem with
  | nil =>
    intro fuel hf _
    cases old with
    | nil => exact absurd rfl hold
    | cons o os =>
      cases fuel with
      | zero => simp at hf
      | succ fuel =>
        simp only [List.nil_append, pyReplaceF]
        rw [if_pos ⟨hold, List.isPrefixOf_iff_prefix.mpr (List.prefix_refl _)⟩]
        simp [List.drop_length, pyReplaceF_nil]
  | cons c cs ih =>
    intro fuel hf hocc
    cases fuel with
    | zero => simp at hf
    | succ fuel =>
      have h0 : ¬ old.isPrefixOf ((c :: cs) ++ old) := by
        have := hocc 0 (by simp)
        simpa using this
      simp only [List.cons_append, pyReplaceF]
      rw [if_neg (by
        intro hcontra
        exact h0 (by simpa using hcontra.2))]
      congr 1
      apply ih
      · simp at hf ⊢
        omega
      · intro i hi
        have := hocc (i + 1) (by simp at hi ⊢; omega)
        simpa using this

/-- `replace(old, "")` on `stem ++ old` with no earlier occurrence of `old`
yields `stem`. -/
theorem pyReplace_strip (stem old : List Char) (hold : old ≠ [])
    (hocc : ∀ i, i < stem.length → ¬ old.isPrefixOf ((stem ++ old).drop i)) :
    pyReplace (stem ++ old) old [] = stem :=
  pyReplaceF_strip old hold stem (stem ++ old).length le_rfl hocc

/-- `rfind` on a string not containing the character. -/
theorem pyRfind_not_mem (s : List Char) (c : Char) (h : c ∉ s) : pyRfind s c = -1 := by
  induction s with
  | nil => rfl
  | cons x rest ih =>
    simp only [List.mem_cons, not_or] at h
    simp [pyRfind, ih h.2, Ne.symm h.1]

/-- `rfind` finds the last occurrence. -/
theorem pyRfind_last (a b : List Char) (c : Char) (hb : c ∉ b) :
    pyRfind (a ++ c :: b) c = a.length := by
  induction a with
  | nil => simp [pyRfind, pyRfind_not_mem b c hb]
  | cons x a' ih =>
    simp only [List.cons_append, pyRfind, ih]
    simp
    omega

/-- Slicing up to the position of the splitting character. -/
theorem pySliceTo_append (a b : List Char) (c : Char) :
    pySliceTo (a ++ c :: b) (a.length : Int) = a := by
  simp only [pySliceTo, pyIdx]
  rw [if_neg (by omega)]
  have h1 : (a.length : Int).toNat = a.length := by omega
  rw [h1]
  have h2 : min a.length (a ++ c :: b).length = a.length := by
    simp
  rw [h2, List.take_left]

/-- Slicing from just past the splitting character. -/
theorem pySliceFrom_append (a b : List Char) (c : Char) :
    pySliceFrom (a ++ c :: b) ((a.length : Int) + 1) = b := by
  simp only [pySliceFrom, pyIdx]
  rw [if_neg (by omega)]
  have h1 : ((a.length : Int) + 1).toNat = a.length + 1 := by omega
  rw [h1]
  have h2 : min (a.length + 1) (a ++ c :: b).length = a.length + 1 := by
    simp
  rw [h2]
  have h3 : a ++ c :: b = (a ++ [c]) ++ b := by simp
  rw [h3]
  have h4 : a.length + 1 = (a ++ [c]).length := by simp
  rw [h4, List.drop_left]

/-- C7: for a companion-archive member filename whose suffix occurs only at
the end, the command is built from the base name with the suffix stripped
and the remainder split at its last underscore into the collection and PID
components; in particular `ACME_COLL_obj123_foxml_atomzip.zip` yields
collection `ACME_COLL` and PID `obj123`. -/
theorem C7_logical_name_derivation :
    (∀ (p stem a b : List Char),
        basename p = stem ++ atomzipSuffix →
        (∀ i, i < stem.length → ¬ atomzipSuffix.isPrefixOf ((stem ++ atomzipSuffix).drop i)) →
        stem = a ++ '_' :: b → '_' ∉ b →
        format_drush_command_from_atomzip p = drushHead ++ a ++ ':' :: b) ∧
    format_drush_command_from_atomzip "ACME_COLL_obj123_foxml_atomzip.zip".toList =
      "drush @dsu --user=1 create-islandora-bag object ACME_COLL:obj123".toList := by
  constructor
  · intro p stem a b hbase hocc hsplit hb
    subst hsplit
    simp only [format_drush_command_from_atomzip, hbase]
    rw [pyReplace_strip _ _ (by decide) hocc]
    rw [pyRfind_last a b '_' hb]
    rw [pySliceTo_append, pySliceFrom_append]
    simp
  · rfl

/-- C7 at the specification's example filename, inside a directory. -/
theorem C7_logical_name_derivation_witness :
    format_drush_command_from_atomzip "data/ACME_COLL_obj123_foxml_atomzip.zip".toList =
      drushHead ++ "ACME_COLL".toList ++ ':' :: "obj123".toList :=
  C7_logical_name_derivation.1 "data/ACME_COLL_obj123_foxml_atomzip.zip".toList
    "ACME_COLL_obj123".toList "ACME_COLL".toList "obj123".toList
    (by rfl) (by decide) (by rfl) (by decide)

/-- C10: when the stripped base name has no underscore, the derivation still
returns a command: `rfind` yields `-1`, so the collection component is the
stripped name minus its final character (`s[:-1]`) and the PID component is
the entire stripped name (`s[0:]`). -/
theorem C10_no_separator_fallback (p stem : List Char)
    (hbase : basename p = stem ++ atomzipSuffix)
    (hocc : ∀ i, i < stem.length → ¬ atomzipSuffix.isPrefixOf ((stem ++ atomzipSuffix).drop i))
    (hu : '_' ∉ stem) :
    format_drush_command_from_atomzip p =
      drushHead ++ stem.take (stem.length - 1) ++ ':' :: stem := by
  simp only [format_drush_command_from_atomzip, hbase]
  rw [pyReplace_strip _ _ (by decide) hocc]
  rw [pyRfind_not_mem stem '_' hu]
  have hTo : pySliceTo stem (-1) = stem.take (stem.length - 1) := by
    simp only [pySliceTo, pyIdx]
    rw [if_pos (by omega)]
    congr 1
    omega
  have hFrom : pySliceFrom stem (-1 + 1) = stem := by
    simp only [pySliceFrom, pyIdx]
    norm_num
  rw [hTo, hFrom]
  simp

/-- C10 at a concrete underscore-free stem. -/
theorem C10_no_separator_fallback_witness :
    format_drush_command_from_atomzip "obj_foxml_atomzip.zip".toList =
      drushHead ++ "ob".toList ++ ':' :: "obj".toList :=
  C10_no_separator_fallback "obj_foxml_atomzip.zip".toList "obj".toList
    (by rfl) (by decide) (by decide)

/-- C2, counterexample: a batch item whose transform step fails is logged
with the item's name, but the item is NOT excluded from the Result Index —
line 280 appends it unconditionally after the formatter runs. -/
theorem C2_counterexample :
    (process_container_zip [cexItem]).log = [LogEvent.transformError "bagA".toList] ∧
    (process_container_zip [cexItem]).index =
      [("bagA".toList, pathFor "bagA".toList)] :=
  ⟨rfl, rfl⟩

/-- C2, amended: (a) a generation failure is logged with the member's name,
excludes the item, and the loop continues; (b) a transform error is logged
with the item's name but the item proceeds to formatting and is appended to
the Result Index; (c) a formatter non-zero exit is logged without the
item's name and the item is appended under its fresh path (holding the
previous item's text); (d) a formatter timeout before any item has bound an
output path raises an uncaught error that aborts the container's remaining
members; (e) a formatter timeout after some item bound a path appends this
item under the previous item's stale path. -/
theorem C2_per_item_error_amended :
    (∀ (st : LoopState) (it : Item), st.foundFirst = true → it.drushBagPath = none →
        processItem st it = .next { st with log := st.log ++ [LogEvent.drushFailed it.name] }) ∧
    (∀ (st : LoopState) (name bp out : List Char),
        st.foundFirst = true → st.dirs.contains name = false →
        processItem st { name := name, nameInInput := false, drushBagPath := some bp,
                         locateOk := true, managed := true, transformFails := true,
                         fmt := .ok out } =
          .next { st with formatted := some out
                          convPath := some (pathFor name)
                          dirs := st.dirs ++ [name]
                          index := st.index ++ [(name, pathFor name)]
                          log := st.log ++ [LogEvent.transformError name] }) ∧
    (∀ (st : LoopState) (name bp txt : List Char),
        st.foundFirst = true → st.dirs.contains name = false → st.formatted = some txt →
        processItem st { name := name, nameInInput := false, drushBagPath := some bp,
                         locateOk := true, managed := false, transformFails := false,
                         fmt := .nonzeroExit } =
          .next { st with convPath := some (pathFor name)
                          dirs := st.dirs ++ [name]
                          index := st.index ++ [(name, pathFor name)]
                          log := st.log ++ [LogEvent.fmtError] }) ∧
    (∀ (st : LoopState) (name bp : List Char),
        st.foundFirst = true → st.convPath = none →
        processItem st { name := name, nameInInput := false, drushBagPath := some bp,
                         locateOk := true, managed := false, transformFails := false,
                         fmt := .timeout } =
          .abort { st with log := st.log ++ [LogEvent.fmtTimeout] }) ∧
    (∀ (st : LoopState) (name bp stale : List Char),
        st.foundFirst = true → st.convPath = some stale →
        processItem st { name := name, nameInInput := false, drushBagPath := some bp,
                         locateOk := true, managed := false, transformFails := false,
                         fmt := .timeout } =
          .next { st with index := st.index ++ [(name, stale)]
                          log := st.log ++ [LogEvent.fmtTimeout] }) := by
  refine ⟨?_, ?_, ?_, ?_, ?_⟩
  · intro st it hf hd
    simp [processItem, hf, hd]
  · intro st name bp out hf hdirs
    have hd2 : ¬ name ∈ st.dirs := by simpa using hdirs
    simp [processItem, processRest, finishAppend, hf, hd2]
  · intro st name bp txt hf hdirs hfmt
    have hd2 : ¬ name ∈ st.dirs := by simpa using hdirs
    simp [processItem, processRest, finishAppend, hf, hd2, hfmt]
  · intro st name bp hf hconv
    simp [processItem, processRest, finishAppend, hf, hconv]
  · intro st name bp stale hf hconv
    simp [processItem, processRest, finishAppend, hf, hconv]

/-- C2's amended statement at concrete states and items, one instance per
failure mode. -/
theorem C2_per_item_error_amended_witness :
    (processItem wStEmpty
        { name := "bagD".toList, nameInInput := true, drushBagPath := none,
          locateOk := true, managed := false, transformFails := false,
          fmt := .ok "y".toList } =
      .next { wStEmpty with log := [LogEvent.drushFailed "bagD".toList] }) ∧
    (processItem wStEmpty
        { name := "bagB".toList, nameInInput := false, drushBagPath := some "p".toList,
          locateOk := true, managed := true, transformFails := true,
          fmt := .ok "<out/>".toList } =
      .next { wStEmpty with formatted := some "<out/>".toList
                            convPath := some (pathFor "bagB".toList)
                            dirs := ["bagB".toList]
                            index := [("bagB".toList, pathFor "bagB".toList)]
                            log := [LogEvent.transformError "bagB".toList] }) ∧
    (processItem wStBound
        { name := "bagC".toList, nameInInput := false, drushBagPath := some "p".toList,
          locateOk := true, managed := false, transformFails := false,
          fmt := .nonzeroExit } =
      .next { wStBound with convPath := some (pathFor "bagC".toList)
                            dirs := ["bagA".toList, "bagC".toList]
                            index := [("bagA".toList, pathFor "bagA".toList),
                                      ("bagC".toList, pathFor "bagC".toList)]
                            log := [LogEvent.fmtError] }) ∧
    (processItem wStEmpty
        { name := "bagE".toList, nameInInput := false, drushBagPath := some "p".toList,
          locateOk := true, managed := false, transformFails := false,
          fmt := .timeout } =
      .abort { wStEmpty with log := [LogEvent.fmtTimeout] }) ∧
    (processItem wStBound
        { name := "bagF".toList, nameInInput := false, drushBagPath := some "p".toList,
          locateOk := true, managed := false, transformFails := false,
          fmt := .timeout } =
      .next { wStBound with index := [("bagA".toList, pathFor "bagA".toList),
                                      ("bagF".toList, pathFor "bagA".toList)]
                            log := [LogEvent.fmtTimeout] }) := by
  refine ⟨?_, ?_, ?_, ?_, ?_⟩
  · exact C2_per_item_error_amended.1 wStEmpty _ rfl rfl
  · exact C2_per_item_error_amended.2.1 wStEmpty "bagB".toList "p".toList "<out/>".toList
      rfl (by rfl)
  · exact C2_per_item_error_amended.2.2.1 wStBound "bagC".toList "p".toList "<x/>".toList
      rfl (by rfl) rfl
  · exact C2_per_item_error_amended.2.2.2.1 wStEmpty "bagE".toList "p".toList rfl rfl
  · exact C2_per_item_error_amended.2.2.2.2 wStBound "bagF".toList "p".toList
      (pathFor "bagA".toList) rfl rfl
